import Mathlib

/-!
Verification development for the `express-openapi-validate` fork
(`src/OpenApiValidator.ts`).  The TypeScript source registers custom ajv
keywords (`x-empty`, `x-range`, `x-key`, `readOnly`) on a single shared ajv
instance and compiles request/response schemas against it.  The definitions
below are a shallow embedding of that source: generated keyword validators
become Lean functions, the mutable keyword registry of the shared ajv
instance becomes an explicit state record, and throwing code returns
`Except`.  All definitions are executable.
-/

/-- HTTP methods accepted by `validate` (`Operation` type in the source). -/
inductive Method where
  | get
  | post
  | put
  | patch
  | delete
  | head
  | options
deriving DecidableEq

/--
The mutable keyword registry of the shared ajv instance (`this._ajv`).
`readOnlyFails` records whether the failing `readOnly` keyword variant is
currently registered (source lines 212-226); `xKeyChecks` records whether
the checking `x-key` variant is currently registered (lines 227-269 and
326-363).  At construction time neither failing variant is registered:
ajv's built-in `readOnly` keyword is a no-op annotation and `x-key` has not
been added yet.
-/
structure AjvState where
  readOnlyFails : Bool
  xKeyChecks : Bool
deriving DecidableEq

/-- Registry state right after the `OpenApiValidator` constructor ran. -/
def initialAjv : AjvState := ⟨false, false⟩

/--
Keyword re-registration performed at the top of `validate(method, path)`
(source lines 212-232): the failing `readOnly` variant is installed exactly
for `post`/`patch`/`put`, and the checking `x-key` variant is installed
exactly for methods other than `patch`.  Both keywords are overwritten
unconditionally, so the previous state is discarded.
-/
def registerForValidate (m : Method) (_s : AjvState) : AjvState :=
  ⟨decide (m = .post ∨ m = .patch ∨ m = .put), decide (m ≠ .patch)⟩

/--
Keyword re-registration performed by `validateResponse` (source lines
326-363): the checking `x-key` variant is always installed; the `readOnly`
registration is left untouched.
-/
def registerForValidateResponse (s : AjvState) : AjvState :=
  { s with xKeyChecks := true }

/-! ### The `x-key` keyword (source lines 232-269 and 327-363)

The generated validator receives the annotation string (comma-separated
field names) and an array of items.  Field values are modelled as strings,
which is the domain the composite-identifier concatenation is written for;
a `none` result of `getField` covers both a missing field (JS `undefined`)
and an explicit `null`, the two cases the generated code treats alike.
With ajv's default options (`allErrors` unset) `cxt.error()` compiles to an
immediate `return false`, which the `Except` short-circuit mirrors.
-/

/-- `String.prototype.split` on a single-character separator, as
`schema.split(',')` uses it: structural recursion over the characters, so
that concrete instances evaluate by kernel reduction. -/
def splitKeysGo (cur : String) : List Char → List String
  | [] => [cur]
  | c :: cs => if c = ',' then cur :: splitKeysGo "" cs else splitKeysGo (cur.push c) cs

/-- `schema.split(',')`: the list of key names of an `x-key` annotation. -/
def splitKeys (s : String) : List String :=
  splitKeysGo "" s.data

deriving instance DecidableEq for Except

/-- One array element: an object, as a field-name/value association list.
A pair `(k, none)` encodes an explicit JSON `null` value for `k`; a key
absent from the list encodes JS `undefined`. -/
abbrev Item := List (String × Option String)

/-- `item[key]` followed by the `undefined`/`null` test of the generated
code: `none` iff `item[key] === undefined || item[key] === null`. -/
def getField (it : Item) (k : String) : Option String :=
  (it.lookup k).bind id

/-- Error message of the missing-key branch of the generated code. -/
def missingMsg (k : String) : String :=
  "Key '" ++ k ++ "' is not present in array item"

/-- Error message of the duplicate-identifier branch of the generated code. -/
def dupMsg (id : String) : String :=
  "Array item has redundant key '" ++ id ++ "'"

/--
The inner `forIn` loop of the generated `x-key` code: walks the key names
in order, errors on the first missing/null field, and otherwise folds the
composite identifier (`id = item[key]` on the first key, then
`id = id + ',' + item[key]`).
-/
def buildIdGo (it : Item) (first : Bool) (acc : String) : List String → Except String String
  | [] => .ok acc
  | k :: ks =>
    match getField it k with
    | none => .error (missingMsg k)
    | some v => buildIdGo it false (if first then v else acc ++ "," ++ v) ks

/-- Composite-identifier construction for one array element. -/
def buildId (ks : List String) (it : Item) : Except String String :=
  buildIdGo it true "" ks

/-- Values joined by commas, as the generated concatenation produces. -/
def joinComma : List String → String
  | [] => ""
  | v :: vs => vs.foldl (fun acc w => acc ++ "," ++ w) v

/-- The composite identifier of an element under a key list, for elements
whose named fields are all present (missing fields default to `""`; they
never reach the identifier comparison because the validator errors first). -/
def compositeId (ks : List String) (it : Item) : String :=
  joinComma (ks.map fun k => (getField it k).getD "")

/--
The outer `forOf` loop of the generated `x-key` code: `seen` is the `idSet`
accumulated so far; each element's identifier is built, checked against
`seen`, and added.
-/
def xKeyCheckGo (ks : List String) (seen : List String) : List Item → Except String Unit
  | [] => .ok ()
  | it :: rest =>
    match buildId ks it with
    | .error e => .error e
    | .ok id =>
      if id ∈ seen then .error (dupMsg id)
      else xKeyCheckGo ks (id :: seen) rest

/-- The checking `x-key` keyword validator: annotation string split on
commas (`schema.split(',')`), then the two-loop scan above. -/
def xKeyCheck (schema : String) (items : List Item) : Except String Unit :=
  xKeyCheckGo (splitKeys schema) [] items

/-- The `x-key` behaviour baked into a request validator compiled by
`validate(method, path)`: a no-op keyword for `patch` (source line 229),
the checking validator for every other method (line 232). -/
def applyXKeyRequest (m : Method) (schema : String) (items : List Item) : Except String Unit :=
  if m = .patch then .ok () else xKeyCheck schema items

/--
The `x-key` behaviour of a response validator.  `validateResponse` compiles
the response schema inside the returned handler (source line 419), i.e. at
evaluation time, against whatever variant the shared registry holds at that
moment: the checking validator if `xKeyChecks` is set, a no-op otherwise.
-/
def xKeyRuntime (st : AjvState) (schema : String) (items : List Item) : Except String Unit :=
  if st.xKeyChecks then xKeyCheck schema items else .ok ()

/-! ### JSON values and the `x-empty` keyword (source lines 134-144) -/

/-- JSON values, for payload bodies. -/
inductive JVal where
  | null
  | bool (b : Bool)
  | num (n : Int)
  | str (s : String)
  | arr (elems : List JVal)
  | obj (fields : List (String × JVal))

/--
The `x-empty` keyword validator generated at source lines 134-144:
`data.length === 1 && data[0] === null`.  The keyword is declared with
`type: 'array'`, so it only ever runs on array data; the boolean annotation
value is not inspected by the generated code.
-/
def xEmptyKeyword (_schemaVal : Bool) (data : List JVal) : Bool :=
  decide (data.length = 1) &&
    (match data.head? with
     | some .null => true
     | _ => false)

/-! ### Body schemas and their validation

A body schema is modelled one object level deep, which is as much structure
as the schemas in the claims use: an object schema with `required` names
and per-property leaf schemas carrying the keyword annotations.  Validation
is keyword-driven exactly as in ajv: absent annotations check nothing.
-/

/-- Leaf keyword annotations of one property's schema. -/
structure LeafSchema where
  readOnly : Option Bool := none
  xEmpty : Option Bool := none

/-- An object body schema: `properties` and `required`. -/
structure BodySchema where
  properties : List (String × LeafSchema) := []
  required : List String := []

/-- The schema `{}`, the default used when no body schema is declared. -/
def emptyBodySchema : BodySchema := {}

/--
One property's validation against its leaf schema in registry state `st`.
The failing `readOnly` variant (source lines 215-222) runs `cxt.error()`
unconditionally whenever the keyword is present with a boolean annotation
and the data is present (its `type` list names every JSON type); the no-op
variant checks nothing.  `x-empty` runs on array data only.
-/
def validateLeaf (st : AjvState) (ls : LeafSchema) (v : JVal) : Bool :=
  !(st.readOnlyFails && ls.readOnly.isSome) &&
    (match ls.xEmpty, v with
     | some b, .arr xs => xEmptyKeyword b xs
     | _, _ => true)

/-- Validation of a JSON value against an object body schema in registry
state `st`: `required` names must be present, and each present property
must satisfy its leaf schema.  Object keywords are vacuous on non-objects,
as in JSON Schema. -/
def validateBody (st : AjvState) (sch : BodySchema) (v : JVal) : Bool :=
  match v with
  | .obj fields =>
    sch.required.all (fun r => (fields.lookup r).isSome) &&
      sch.properties.all (fun p =>
        match fields.lookup p.1 with
        | some fv => validateLeaf st p.2 fv
        | none => true)
  | _ => true

/--
Validation outcome, as regards `readOnly` alone, of a payload object under
an object schema whose properties carry optional `readOnly` annotations.
`props` maps a field name to its schema's `readOnly` annotation (if the
schema declares one); `present` lists the fields present in the payload.
Mirrors ajv's per-property keyword application with the variant recorded in
`st` (see `validateLeaf`; this projection makes the method-sensitivity of
`readOnly` directly visible).
-/
def validateBodyReadOnly (st : AjvState) (props : List (String × Option Bool))
    (present : List String) : Bool :=
  present.all fun f =>
    match props.lookup f with
    | some ro => !(st.readOnlyFails && ro.isSome)
    | none => true

/-! ### Body-schema extraction (source lines 184-188 and 367-371) -/

/-- The only media type whose schema is consulted. -/
def yangJsonMediaType : String := "application/yang-data+json"

/--
`_.get(requestBodyObject, ["content", "application/yang-data+json",
"schema"], {})`: the body schema is the content entry for the yang-data
media type, defaulting to the empty schema `{}` when the content map has no
such entry.  The same expression appears in `validate` (lines 184-188) and
in `validateResponse` (lines 367-371).
-/
def bodySchemaOf (content : List (String × BodySchema)) : BodySchema :=
  (content.lookup yangJsonMediaType).getD emptyBodySchema

/-! ### Request `required` list (source lines 196-210)

`parameters.buildSchema` lives in `src/parameters.ts`, which is not part of
the sources at hand; its output shape is modelled from the spec (see
`fragmentKeys`).  The `required`-list construction itself is the code at
source lines 196-210.
-/

/-- Parameter locations of the API description. -/
inductive ParamLoc where
  | query
  | header
  | path
  | cookie
deriving DecidableEq

/-- A declared (merged) parameter: name, location, required flag. -/
structure Param where
  name : String
  loc : ParamLoc
  required : Bool

/-- The parameters declared at one location. -/
def paramsAt (ps : List Param) (l : ParamLoc) : List Param :=
  ps.filter (fun p => p.loc = l)

/--
Modelled from the spec: `parameters.buildSchema` (`src/parameters.ts`) is
not among the sources.  Per the spec it "produces four independent schema
fragments keyed by location — query, headers, path-params, cookies — each
an object schema whose properties are the parameter names and whose
`required` list contains parameters marked required".  A location with no
declared parameters yields an empty fragment (the spec's own end-to-end
example validates a request without a `cookies` part successfully, which
forces the empty-location fragment to be empty rather than a bare
`{type, properties}` object).  This function returns `Object.keys` of the
fragment, which is what the source inspects.
-/
def fragmentKeys (ps : List Param) (l : ParamLoc) : List String :=
  let here := paramsAt ps l
  if here.isEmpty then []
  else ["type", "properties"] ++ (if here.any (fun p => p.required) then ["required"] else [])

/--
The `required` list of the compiled request schema (source lines 196-210):
`["query", "headers", "params"]` always; `"cookies"` appended when
`!_.isEmpty(parametersSchema.cookies) &&
Object.keys(parametersSchema.cookies).length > 1`; `"body"` appended when
the request body object has `required === true`.
-/
def requestRequired (ps : List Param) (bodyRequired : Bool) : List String :=
  let base := ["query", "headers", "params"]
  let ck := fragmentKeys ps .cookie
  let withCookies := if !ck.isEmpty && decide (ck.length > 1) then base ++ ["cookies"] else base
  if bodyRequired then withCookies ++ ["body"] else withCookies

/-! ### Response-definition selection (source lines 436-452) -/

/-- `String(statusCode)[0] + "XX"`: the status-class token. -/
def statusClassKey (code : Nat) : String :=
  (toString code).take 1 ++ "XX"

/--
`_getResponseObject` (source lines 436-452): exact status-code key, then
the status-class token, then `"default"`, else a configuration error.
Reference resolution on the found entry is the identity in this model.
-/
def getResponseObject {α : Type} (responses : List (String × α)) (code : Nat) :
    Except String α :=
  match responses.lookup (toString code) with
  | some r => .ok r
  | none =>
    match responses.lookup (statusClassKey code) with
    | some r => .ok r
    | none =>
      match responses.lookup "default" with
      | some r => .ok r
      | none => .error ("No response object found with statusCode=" ++ toString code)

/-- The response map of the spec's selection example: entries for `"404"`,
`"4XX"` and `"default"`. -/
def exampleResponses : List (String × String) :=
  [("404", "exact"), ("4XX", "class"), ("default", "default-entry")]

/-! ### Constructor version gate (source lines 79-84) -/

/-- A parsed semantic version: `major.minor.patch`, and whether a
prerelease tag is attached. -/
structure SemVer where
  major : Nat
  minor : Nat
  patch : Nat
  prerelease : Bool
deriving DecidableEq

/--
`semver.satisfies(v, "^3.0.0")` of the `semver` npm package: the caret
range denotes `>=3.0.0 <4.0.0`, an invalid or absent version string tests
false, and a prerelease version satisfies no comparator of the range (the
range contains no prerelease comparators), hence also tests false.  On
parsed versions this is exactly: major is `3` and no prerelease tag.
`none` stands for an absent or unparsable `openapi` field.
-/
def satisfiesCaret3 : Option SemVer → Bool
  | none => false
  | some v => decide (v.major = 3) && !v.prerelease

/-- The constructor's version gate (source lines 79-84): succeed when the
document's `openapi` field satisfies `^3.0.0`, else throw the
unsupported-version error. -/
def constructorCheck (openapiField : Option SemVer) : Except String Unit :=
  if satisfiesCaret3 openapiField then .ok ()
  else .error "Unsupported OpenAPI / Swagger version"

/-- The claim's version predicate: a version in the `3.0.x` line. -/
def inThreeZeroLine (v : SemVer) : Bool :=
  decide (v.major = 3) && decide (v.minor = 0)

/-- Digit-string accumulator for `parseDecInt` (structural recursion). -/
def digitsToNatGo (acc : Nat) : List Char → Option Nat
  | [] => some acc
  | c :: cs =>
    if c.isDigit then digitsToNatGo (acc * 10 + (c.toNat - 48)) cs else none

/--
An optional-sign decimal-integer string parsed exactly, `none` for any
other string.  This is the common integer domain of JS `Number` and
`BigInt` on which the model works (strings such as `""`, hex or exponent
forms are outside the modelled domain).
-/
def parseDecInt (s : String) : Option Int :=
  match s.data with
  | [] => none
  | '-' :: cs =>
    if cs = [] then none else (digitsToNatGo 0 cs).map (fun n => -(n : Int))
  | cs => (digitsToNatGo 0 cs).map (fun n => (n : Int))

/-! ### Response normalization, `resolveResponse` (source lines 43-57) -/

/-- Scalar-level JS values as `resolveResponse` distinguishes them.  `objv`
stands for any object value (truthy, not nullish); numeric strings are the
only strings this model converts to numbers (enough for status codes). -/
inductive JsAtom where
  | undefined
  | null
  | boolv (b : Bool)
  | numv (n : Int)
  | strv (s : String)
  | objv
deriving DecidableEq

/-- JS truthiness. -/
def truthy : JsAtom → Bool
  | .undefined => false
  | .null => false
  | .boolv b => b
  | .numv n => decide (n ≠ 0)
  | .strv s => decide (s ≠ "")
  | .objv => true

/-- JS `a || b`. -/
def jsOr (a b : JsAtom) : JsAtom :=
  if truthy a then a else b

/-- JS `Number(x)` restricted to the values relevant here; `none` is `NaN`.
Strings are modelled on the decimal-integer domain (`""` converts to `0`). -/
def toNumber : JsAtom → Option Int
  | .undefined => none
  | .null => some 0
  | .boolv b => some (if b then 1 else 0)
  | .numv n => some n
  | .strv s => if s = "" then some 0 else parseDecInt s
  | .objv => none

/-- JS `x == null`: true exactly for `undefined` and `null`. -/
def nullish : JsAtom → Bool
  | .undefined => true
  | .null => true
  | _ => false

/-- A response-like value: the five fields `resolveResponse` reads.  A
field the object does not carry is `undefined`. -/
structure ResLike where
  statusCode : JsAtom := .undefined
  status : JsAtom := .undefined
  body : JsAtom := .undefined
  data : JsAtom := .undefined
  headers : JsAtom := .undefined

/--
`resolveResponse` (source lines 43-57): throw on a nullish response value;
compute `Number(res.statusCode || res.status)` and map `NaN` to `null`;
take `res.body || res.data` and `res.headers`; throw if the status code,
the body or the headers are (JS-loosely) null; otherwise return the
normalized triple.  `none` models a `null`/`undefined` response argument.
-/
def resolveResponse (res : Option ResLike) : Except String (Int × JsAtom × JsAtom) :=
  match res with
  | none => .error "Response was null or undefined"
  | some r =>
    let body := jsOr r.body r.data
    match toNumber (jsOr r.statusCode r.status) with
    | none => .error "statusCode, body or header values not found from response"
    | some sc =>
      if nullish body || nullish r.headers then
        .error "statusCode, body or header values not found from response"
      else
        .ok (sc, body, r.headers)

/-! ### The `x-range` keyword (source lines 145-174)

The generated validator declares `let num = data`, overwrites `num` with
`BigInt(num)` or `Number(num)` when `data` is a string — and then compares
`data` itself (not `num`) against every `range.min`/`range.max` with the
plain JS relational operators.  For a string operand those operators coerce
the string with `Number`, i.e. through IEEE-754 double rounding, while the
`x-type: int64/uint64` conversion the code computes (and discards) is exact
`BigInt` arithmetic.  Range bounds are modelled as exact integers (the
claims use bounds that are exactly representable as doubles).
-/

/-- The companion `x-type` annotation, as far as `x-range` inspects it. -/
inductive XTypeHint where
  | int64
  | uint64
  | other
deriving DecidableEq

/-- A value of a string- or integer-typed schema node, the only data types
the `x-range` keyword is declared for. -/
inductive RangeVal where
  | num (n : Int)
  | str (s : String)
deriving DecidableEq

/-- Fuel-driven binary length of a natural number (structural recursion,
so that concrete instances evaluate by kernel reduction). -/
def bitLenGo : Nat → Nat → Nat
  | 0, _ => 0
  | fuel + 1, n => if n = 0 then 0 else bitLenGo fuel (n / 2) + 1

/-- Number of binary digits of `n` (`0` for `0`). -/
def bitLen (n : Nat) : Nat :=
  bitLenGo n n

/--
IEEE-754 `binary64` round-to-nearest-even of an integer: exact below
`2^53`, otherwise rounded to the nearest multiple of the spacing
`2^(bitlength - 53)` with ties to even (overflow to infinity is outside the
modelled domain).  This is what JS `Number` produces on a decimal-integer
string.
-/
def roundToDouble (n : Int) : Int :=
  let a := n.natAbs
  if a ≤ 2 ^ 53 then n
  else
    let e := bitLen a - 53
    let q := a / 2 ^ e
    let r := a % 2 ^ e
    let half := 2 ^ (e - 1)
    let q' := if half < r ∨ (r = half ∧ q % 2 = 1) then q + 1 else q
    if n < 0 then -(q' * 2 ^ e : Int) else (q' * 2 ^ e : Int)

/-- JS `Number` on a (decimal-integer) string; `none` is `NaN`. -/
def jsNumOfString (s : String) : Option Int :=
  (parseDecInt s).map roundToDouble

/-- The JS relational `data >= bound` as the generated code evaluates it:
exact on numbers, `Number`-coerced (hence double-rounded) on strings, and
false when the coercion yields `NaN`. -/
def jsRelGE (v : RangeVal) (bound : Int) : Bool :=
  match v with
  | .num n => decide (bound ≤ n)
  | .str s =>
    match jsNumOfString s with
    | some d => decide (bound ≤ d)
    | none => false

/-- The JS relational `data <= bound` of the generated code. -/
def jsRelLE (v : RangeVal) (bound : Int) : Bool :=
  match v with
  | .num n => decide (n ≤ bound)
  | .str s =>
    match jsNumOfString s with
    | some d => decide (d ≤ bound)
    | none => false

/--
The `x-range` keyword validator the source generates (lines 145-174): the
conversion of a string `data` to `num` is computed — `BigInt` throwing on a
non-integer string when `x-type` is `int64`/`uint64` — but `num` is never
read again; acceptance is decided by comparing `data` itself against the
bounds of each range, stopping at the first matching range.
-/
def xRangeCode (xt : XTypeHint) (ranges : List (Int × Int)) (v : RangeVal) :
    Except Unit Bool :=
  match v with
  | .str s =>
    if (xt = .int64 ∨ xt = .uint64) ∧ parseDecInt s = none then .error ()
    else .ok (ranges.any fun p => jsRelGE v p.1 && jsRelLE v p.2)
  | .num _ => .ok (ranges.any fun p => jsRelGE v p.1 && jsRelLE v p.2)

/-- Membership of a converted value in at least one closed range. -/
def inSomeRange (ranges : List (Int × Int)) (c : Int) : Bool :=
  ranges.any fun p => decide (p.1 ≤ c ∧ c ≤ p.2)

/--
The behaviour the claim (and spec §4.4) describes, stated in the spec's own
words: convert the value first — exact (`BigInt`) integer conversion for
`x-type` `int64`/`uint64` strings, standard `Number` conversion (double
rounding, `NaN` rejected everywhere) otherwise — and accept exactly when
the converted value lies in at least one closed range.
-/
def xRangeClaimed (xt : XTypeHint) (ranges : List (Int × Int)) (v : RangeVal) :
    Except Unit Bool :=
  match v with
  | .num n => .ok (inSomeRange ranges n)
  | .str s =>
    if xt = .int64 ∨ xt = .uint64 then
      match parseDecInt s with
      | some k => .ok (inSomeRange ranges k)
      | none => .error ()
    else
      .ok (match jsNumOfString s with
           | some d => inSomeRange ranges d
           | none => false)

/-! ### Concrete inputs used by the claim theorems -/

/-- A parameter list declaring exactly one cookie parameter. -/
def oneCookieParam : List Param := [⟨"sid", .cookie, false⟩]

/-- The version `3.1.0` (no prerelease tag). -/
def v310 : SemVer := ⟨3, 1, 0, false⟩

/-- A single range whose upper bound `9007199254740992 = 2^53` is exactly
representable as a double. -/
def int64Ranges : List (Int × Int) := [(1, 9007199254740992)]

/-- The range list of the spec's `x-range` example. -/
def exampleRanges : List (Int × Int) := [(1, 5), (10, 20)]

/-- A response-like value carrying `statusCode`, `body` and `headers`. -/
def okRes : ResLike := { statusCode := .numv 200, body := .strv "ok", headers := .objv }

/-! ## Supporting lemmas -/

theorem buildIdGo_false_eq (it : Item) :
    ∀ (ks : List String) (acc : String),
      (∀ k ∈ ks, (getField it k).isSome) →
      buildIdGo it false acc ks =
        .ok (ks.foldl (fun a k => a ++ "," ++ (getField it k).getD "") acc)
  | [], _, _ => rfl
  | k :: ks, acc, h => by
    obtain ⟨v, hv⟩ := Option.isSome_iff_exists.mp (h k (List.mem_cons_self k ks))
    rw [buildIdGo, hv]
    simp only [List.foldl_cons]
    rw [buildIdGo_false_eq it ks _ (fun k' hk' => h k' (List.mem_cons_of_mem _ hk'))]
    simp [hv]

theorem buildId_complete (ks : List String) (it : Item)
    (h : ∀ k ∈ ks, (getField it k).isSome) :
    buildId ks it = .ok (compositeId ks it) := by
  cases ks with
  | nil => rfl
  | cons k ks =>
    obtain ⟨v, hv⟩ := Option.isSome_iff_exists.mp (h k (List.mem_cons_self k ks))
    rw [buildId, buildIdGo, hv]
    show buildIdGo it false v ks = Except.ok (compositeId (k :: ks) it)
    rw [buildIdGo_false_eq it ks v (fun k' hk' => h k' (List.mem_cons_of_mem _ hk'))]
    unfold compositeId joinComma
    simp [hv, List.foldl_map]

theorem buildIdGo_ok_iff (it : Item) :
    ∀ (ks : List String) (first : Bool) (acc : String),
      (∃ s, buildIdGo it first acc ks = .ok s) ↔ ∀ k ∈ ks, (getField it k).isSome
  | [], _, _ => by simp [buildIdGo]
  | k :: ks, first, acc => by
    cases hv : getField it k with
    | none => simp [buildIdGo, hv]
    | some v =>
      rw [buildIdGo, hv]
      simp only [List.forall_mem_cons, hv, Option.isSome_some, true_and]
      exact buildIdGo_ok_iff it ks false _

theorem xKeyCheckGo_ok_iff (ks : List String) :
    ∀ (items : List Item) (seen : List String),
      xKeyCheckGo ks seen items = .ok () ↔
        ((∀ it ∈ items, ∀ k ∈ ks, (getField it k).isSome) ∧
         (items.map (compositeId ks)).Nodup ∧
         ∀ s ∈ items.map (compositeId ks), s ∉ seen)
  | [], seen => by simp [xKeyCheckGo]
  | it :: rest, seen => by
    by_cases hc : ∀ k ∈ ks, (getField it k).isSome
    · have hb := buildId_complete ks it hc
      by_cases hmem : compositeId ks it ∈ seen
      · rw [xKeyCheckGo, hb]
        simp only [if_pos hmem]
        constructor
        · intro h; cases h
        · rintro ⟨-, -, h3⟩
          exact absurd hmem (h3 _ (by simp))
      · rw [xKeyCheckGo, hb]
        simp only [if_neg hmem]
        rw [xKeyCheckGo_ok_iff ks rest (compositeId ks it :: seen)]
        simp only [List.forall_mem_cons, List.map_cons, List.nodup_cons]
        constructor
        · rintro ⟨h1, h2, h3⟩
          have h3' : ∀ s ∈ rest.map (compositeId ks),
              s ≠ compositeId ks it ∧ s ∉ seen := by
            intro s hs
            have hthis := h3 s hs
            simp only [List.mem_cons, not_or] at hthis
            exact hthis
          exact ⟨⟨hc, h1⟩, ⟨fun hmm => (h3' _ hmm).1 rfl, h2⟩, hmem,
            fun s hs => (h3' s hs).2⟩
        · rintro ⟨⟨-, h1⟩, ⟨h2a, h2b⟩, -, h3⟩
          refine ⟨h1, h2b, ?_⟩
          intro s hs
          rw [List.mem_cons, not_or]
          refine ⟨?_, h3 s hs⟩
          intro he
          exact h2a (he ▸ hs)
    · have hne : ¬ ∃ s, buildId ks it = .ok s := by
        rw [buildId, buildIdGo_ok_iff]; exact hc
      cases hb : buildId ks it with
      | ok s => exact absurd ⟨s, hb⟩ hne
      | error e =>
        rw [xKeyCheckGo, hb]
        simp only [List.forall_mem_cons]
        constructor
        · intro h; cases h
        · rintro ⟨⟨h1, -⟩, -⟩; exact absurd h1 hc

/-! ## Claim theorems -/

/--
C2: for every method other than PATCH, the compiled `x-key` validator walks
the array in order building composite identifiers (field values joined by
commas in declared key order) and succeeds exactly when every element
carries every named field (neither missing nor null) and no composite
identifier repeats; a missing field is reported by naming the absent key,
a repeat by naming the duplicate identifier; for PATCH the keyword is a
no-op that accepts every value.
-/
theorem xkey_method_semantics (m : Method) (schema : String) (items : List Item) :
    (m = .patch → applyXKeyRequest m schema items = .ok ()) ∧
    (m ≠ .patch → applyXKeyRequest m schema items = xKeyCheck schema items) ∧
    (xKeyCheck schema items = .ok () ↔
      ((∀ it ∈ items, ∀ k ∈ splitKeys schema, (getField it k).isSome) ∧
       (items.map (compositeId (splitKeys schema))).Nodup)) ∧
    xKeyCheck "id" [[("id", some "a")], [("id", some "a")]] = .error (dupMsg "a") ∧
    xKeyCheck "id" [[]] = .error (missingMsg "id") := by
  refine ⟨fun h => by simp [applyXKeyRequest, h],
          fun h => by simp [applyXKeyRequest, h],
          ?_, rfl, rfl⟩
  rw [xKeyCheck, xKeyCheckGo_ok_iff]
  simp

/-- Witness for C2 at concrete inputs. -/
theorem xkey_method_semantics_witness :
    applyXKeyRequest .patch "id" [[("id", some "a")], [("id", some "a")]] = .ok () :=
  (xkey_method_semantics .patch "id" [[("id", some "a")], [("id", some "a")]]).1 rfl

/--
C3: under the write methods POST/PUT/PATCH a request payload containing a
field whose schema carries a `readOnly` annotation fails unconditionally,
and under every other method `readOnly` has no effect — but the claim's
response half fails on the code: response schemas are compiled at
evaluation time against the shared registry, so after a `validate` call
for a write method a response containing a `readOnly` field is rejected
as well (final conjunct), while on a freshly constructed validator it
passes (third conjunct).
-/
theorem readonly_method_semantics :
    (∀ (m : Method) (s : AjvState) (props : List (String × Option Bool))
        (present : List String) (f : String) (b : Bool),
        (m = .post ∨ m = .put ∨ m = .patch) → f ∈ present →
        props.lookup f = some (some b) →
        validateBodyReadOnly (registerForValidate m s) props present = false) ∧
    (∀ (m : Method) (s : AjvState) (props : List (String × Option Bool))
        (present : List String),
        ¬(m = .post ∨ m = .put ∨ m = .patch) →
        validateBodyReadOnly (registerForValidate m s) props present = true) ∧
    validateBodyReadOnly initialAjv [("f", some true)] ["f"] = true ∧
    validateBodyReadOnly (registerForValidateResponse (registerForValidate .post initialAjv))
        [("f", some true)] ["f"] = false := by
  refine ⟨?_, ?_, rfl, rfl⟩
  · intro m s props present f b hm hf hl
    have hro : (registerForValidate m s).readOnlyFails = true := by
      simp only [registerForValidate, decide_eq_true_eq]
      tauto
    rw [validateBodyReadOnly, List.all_eq_false]
    refine ⟨f, hf, ?_⟩
    rw [hl]
    simp [hro]
  · intro m s props present hm
    have hro : (registerForValidate m s).readOnlyFails = false := by
      simp only [registerForValidate, decide_eq_false_iff_not]
      tauto
    rw [validateBodyReadOnly, List.all_eq_true]
    intro f _
    cases props.lookup f <;> simp [hro]

/-- Witness for C3 at concrete inputs. -/
theorem readonly_method_semantics_witness :
    validateBodyReadOnly (registerForValidate .post initialAjv)
        [("g", some true)] ["g"] = false :=
  readonly_method_semantics.1 .post initialAjv [("g", some true)] ["g"] "g" true
    (Or.inl rfl) (by simp) rfl

/--
C6: the pass/fail outcome is not a function of document, operation, method
and payload alone.  A response validator for a fixed (operation, method)
pair compiles its schema at evaluation time against the shared keyword
registry: evaluated right after `validateResponse` registered the checking
`x-key` variant it rejects a duplicate-key body, and evaluated after a
later `validate('patch', ...)` call swapped the no-op variant in it accepts
the same body.
-/
theorem response_xkey_depends_on_interleaving :
    xKeyRuntime (registerForValidateResponse initialAjv) "id"
        [[("id", some "a")], [("id", some "a")]] = .error (dupMsg "a") ∧
    xKeyRuntime (registerForValidate .patch (registerForValidateResponse initialAjv)) "id"
        [[("id", some "a")], [("id", some "a")]] = .ok () :=
  ⟨rfl, rfl⟩

/--
C9: an array-typed value under an `x-empty: true` annotation is accepted
exactly when it is `[null]`; in particular `[null]` is accepted while `[]`,
`[null, null]` and `[1]` are rejected.
-/
theorem xempty_semantics (data : List JVal) :
    (xEmptyKeyword true data = true ↔ data = [JVal.null]) ∧
    xEmptyKeyword true [JVal.null] = true ∧
    xEmptyKeyword true [] = false ∧
    xEmptyKeyword true [JVal.null, JVal.null] = false ∧
    xEmptyKeyword true [JVal.num 1] = false := by
  refine ⟨?_, rfl, rfl, rfl, rfl⟩
  match data with
  | [] => simp [xEmptyKeyword]
  | [x] => cases x <;> simp [xEmptyKeyword]
  | x :: y :: rest => simp [xEmptyKeyword]

/--
C10: request and response body schemas are read from the content entry for
the media type `application/yang-data+json` alone; any content map without
that entry yields the empty schema, and the empty schema accepts every
value.
-/
theorem yang_media_type_body_schema :
    (∀ (content : List (String × BodySchema)) (sch : BodySchema),
        content.lookup yangJsonMediaType = some sch → bodySchemaOf content = sch) ∧
    (∀ content : List (String × BodySchema),
        content.lookup yangJsonMediaType = none → bodySchemaOf content = emptyBodySchema) ∧
    (∀ (st : AjvState) (v : JVal), validateBody st emptyBodySchema v = true) := by
  refine ⟨?_, ?_, ?_⟩
  · intro c sch h; simp [bodySchemaOf, h]
  · intro c h; simp [bodySchemaOf, h]
  · intro st v; cases v <;> simp [validateBody, emptyBodySchema]

/-- Witness for C10 at concrete inputs. -/
theorem yang_media_type_body_schema_witness :
    bodySchemaOf [("application/json", emptyBodySchema)] = emptyBodySchema ∧
    validateBody initialAjv emptyBodySchema (JVal.num 7) = true :=
  ⟨yang_media_type_body_schema.2.1 [("application/json", emptyBodySchema)] rfl,
   yang_media_type_body_schema.2.2 initialAjv (JVal.num 7)⟩

/--
C4: response-definition selection tries the exact status-code key, then
the status-class token (first digit followed by `XX`), then `default`, and
errors when none exists; with entries for `404`, `4XX` and `default`,
status 404 selects the exact entry, 403 the class entry and 500 the
default entry.
-/
theorem response_selection {α : Type} (rs : List (String × α)) (code : Nat) :
    (∀ r, rs.lookup (toString code) = some r → getResponseObject rs code = .ok r) ∧
    (rs.lookup (toString code) = none →
      ∀ r, rs.lookup (statusClassKey code) = some r → getResponseObject rs code = .ok r) ∧
    (rs.lookup (toString code) = none → rs.lookup (statusClassKey code) = none →
      ∀ r, rs.lookup "default" = some r → getResponseObject rs code = .ok r) ∧
    (rs.lookup (toString code) = none → rs.lookup (statusClassKey code) = none →
      rs.lookup "default" = none →
      getResponseObject rs code =
        .error ("No response object found with statusCode=" ++ toString code)) ∧
    (getResponseObject exampleResponses 404 = .ok "exact" ∧
     getResponseObject exampleResponses 403 = .ok "class" ∧
     getResponseObject exampleResponses 500 = .ok "default-entry") := by
  refine ⟨?_, ?_, ?_, ?_, rfl, rfl, rfl⟩
  · intro r h; simp [getResponseObject, h]
  · intro h1 r h; simp [getResponseObject, h1, h]
  · intro h1 h2 r h; simp [getResponseObject, h1, h2, h]
  · intro h1 h2 h3; simp [getResponseObject, h1, h2, h3]

/-- Witness for C4 at concrete inputs. -/
theorem response_selection_witness :
    getResponseObject exampleResponses 403 = .ok "class" :=
  (response_selection exampleResponses 403).2.1 rfl "class" rfl

/--
C5 counterexample: with exactly one declared cookie parameter the compiled
request schema requires `cookies` — `Object.keys` of the cookies fragment
then holds `type` and `properties`, so its length already exceeds one —
although the claim's condition `more than one cookie parameter` is false.
-/
theorem cookie_requirement_counterexample :
    "cookies" ∈ requestRequired oneCookieParam false ∧
    ¬((paramsAt oneCookieParam .cookie).length > 1) := by
  constructor
  · decide
  · decide

/--
C5 as amended: the request schema's `required` list always contains
`query`, `headers` and `params`; it contains `cookies` exactly when at
least one cookie parameter is declared; and it contains `body` exactly
when the request body is declared required.
-/
theorem request_required_semantics (ps : List Param) (bodyRequired : Bool) :
    ("query" ∈ requestRequired ps bodyRequired ∧
     "headers" ∈ requestRequired ps bodyRequired ∧
     "params" ∈ requestRequired ps bodyRequired) ∧
    ("cookies" ∈ requestRequired ps bodyRequired ↔ paramsAt ps .cookie ≠ []) ∧
    ("body" ∈ requestRequired ps bodyRequired ↔ bodyRequired = true) := by
  unfold requestRequired fragmentKeys
  by_cases hc : (paramsAt ps .cookie).isEmpty
  · have hnil : paramsAt ps .cookie = [] := by rwa [List.isEmpty_iff] at hc
    cases bodyRequired <;> simp [hnil]
  · have hie : (paramsAt ps .cookie).isEmpty = false := by
      rwa [Bool.not_eq_true] at hc
    have hne : paramsAt ps .cookie ≠ [] := by
      intro h
      rw [h] at hie
      exact absurd hie (by simp)
    by_cases hr : (paramsAt ps .cookie).any (fun p => p.required) = true <;>
      cases bodyRequired <;>
        simp [hie, hne, hr]

/--
C7 counterexample: the constructor accepts the version `3.1.0`, which is
outside the `3.0.x` line the claim names — `semver.satisfies(v, "^3.0.0")`
accepts every `3.x.y` release version.
-/
theorem version_gate_counterexample :
    constructorCheck (some v310) = .ok () ∧ inThreeZeroLine v310 = false :=
  ⟨rfl, rfl⟩

/--
C7 as amended: construction succeeds exactly when the document's version
parses and satisfies `^3.0.0`, i.e. is a release version with major 3
(any `3.x.y`, not only `3.0.x`); absent, unparsable, prerelease or
other-major versions throw the unsupported-version error.
-/
theorem version_gate_semantics (ov : Option SemVer) :
    constructorCheck ov = .ok () ↔
      ∃ v, ov = some v ∧ v.major = 3 ∧ v.prerelease = false := by
  cases ov with
  | none => simp [constructorCheck, satisfiesCaret3]
  | some v =>
    by_cases h3 : v.major = 3 <;> by_cases hp : v.prerelease = true <;>
      simp [constructorCheck, satisfiesCaret3, h3, hp]

/--
C8: response normalization fails with a type error exactly when the
response value is nullish or its status code (`statusCode` falling back to
`status`), its body (`body` falling back to `data`) or its `headers` field
cannot be determined; otherwise it returns the `{statusCode, body,
headers}` triple.
-/
theorem resolve_response_semantics (res : Option ResLike) :
    (res = none → resolveResponse res = .error "Response was null or undefined") ∧
    (∀ r, res = some r →
      ((∃ t, resolveResponse res = .ok t) ↔
        ((toNumber (jsOr r.statusCode r.status)).isSome ∧
         nullish (jsOr r.body r.data) = false ∧ nullish r.headers = false)) ∧
      (∀ sc, toNumber (jsOr r.statusCode r.status) = some sc →
        nullish (jsOr r.body r.data) = false → nullish r.headers = false →
        resolveResponse res = .ok (sc, jsOr r.body r.data, r.headers))) := by
  refine ⟨fun h => by rw [h]; rfl, ?_⟩
  rintro r rfl
  constructor
  · cases hn : toNumber (jsOr r.statusCode r.status) with
    | none => simp [resolveResponse, hn]
    | some sc =>
      by_cases hb : nullish (jsOr r.body r.data) = true <;>
        by_cases hh : nullish r.headers = true <;>
          simp [resolveResponse, hn, hb, hh]
  · intro sc hn hb hh
    simp [resolveResponse, hn, hb, hh]

/-- Witness for C8 at concrete inputs. -/
theorem resolve_response_semantics_witness :
    resolveResponse (some okRes) = .ok (200, .strv "ok", .objv) :=
  ((resolve_response_semantics (some okRes)).2 okRes rfl).2 200 rfl rfl rfl

/--
C1: the generated `x-range` validator computes the numeric conversion the
claim describes but never uses it — acceptance compares the raw value with
the JS relational operators, which coerce strings through double rounding.
For `x-type: int64` the string `"9007199254740993"` (that is `2^53 + 1`)
coerces to `9007199254740992` and is accepted against the single range
`[1, 9007199254740992]`, while the claimed BigInt semantics reject it; on
the claim's own example ranges, integer values behave as the claim states.
-/
theorem xrange_dead_conversion :
    xRangeCode .int64 int64Ranges (.str "9007199254740993") = .ok true ∧
    xRangeClaimed .int64 int64Ranges (.str "9007199254740993") = .ok false ∧
    (xRangeCode .other exampleRanges (.num 3) = .ok true ∧
     xRangeCode .other exampleRanges (.num 10) = .ok true ∧
     xRangeCode .other exampleRanges (.num 20) = .ok true ∧
     xRangeCode .other exampleRanges (.num 6) = .ok false ∧
     xRangeCode .other exampleRanges (.num 21) = .ok false ∧
     xRangeCode .other exampleRanges (.num 0) = .ok false) ∧
    (∀ (xt : XTypeHint) (ranges : List (Int × Int)) (n : Int),
        xRangeCode xt ranges (.num n) = .ok (inSomeRange ranges n)) := by
  refine ⟨rfl, rfl, ⟨rfl, rfl, rfl, rfl, rfl, rfl⟩, ?_⟩
  intro xt ranges n
  simp [xRangeCode, inSomeRange, jsRelGE, jsRelLE, Bool.decide_and]
